import Mathlib

/-!
Verification of the keyword-processor batch pipeline.

This file gives a shallow embedding of the retry/parse/batch/resume engine
of the repository (src/ai_processor.py, src/brand_identifier.py,
src/product_validator.py) and proves properties about it.

Python strings are modelled as Lean `String`; the handful of string
operations the code uses (`split` on a single-character separator,
`split(sep, 1)`, `strip`, `lower`, substring membership) are implemented
here over `String.data` by structural recursion so that every definition
is executable and kernel-reducible.
-/

/-- Model of Python `str.split(c)` for a one-character separator `c`:
splits into chunks between occurrences of `c`; always returns at least one
(possibly empty) chunk, and empty chunks are kept. -/
def listSplit (c : Char) : List Char → List (List Char)
  | [] => [[]]
  | h :: t =>
    if h = c then [] :: listSplit c t
    else
      match listSplit c t with
      | [] => [[h]]
      | g :: gs => (h :: g) :: gs

/-- Model of Python `str.strip()`: drop whitespace from both ends. -/
def listTrim (l : List Char) : List Char :=
  (((l.dropWhile Char.isWhitespace).reverse).dropWhile Char.isWhitespace).reverse

/-- Model of Python `str.split(c, 1)` (used only when `c` occurs): the part
before the first occurrence of `c`, and everything after it (later
occurrences of `c` are kept in the second component). -/
def breakAtChar (c : Char) : List Char → List Char × List Char
  | [] => ([], [])
  | h :: t =>
    if h = c then ([], t)
    else
      let p := breakAtChar c t
      (h :: p.1, p.2)

/-- String-level wrapper for `listSplit`. -/
def strSplit (s : String) (c : Char) : List String := (listSplit c s.data).map String.mk

/-- String-level wrapper for `listTrim`. -/
def strTrim (s : String) : String := String.mk (listTrim s.data)

/-- Model of Python `str.lower()` (ASCII case folding). -/
def strLower (s : String) : String := String.mk (s.data.map Char.toLower)

/-- Does the second list occur as the leading segment of the first? -/
def listStartsWith : List Char → List Char → Bool
  | _, [] => true
  | [], _ :: _ => false
  | a :: as, b :: bs => (a = b) && listStartsWith as bs

/-- Does `needle` occur contiguously anywhere in the second list?
Model of Python `needle in hay`. -/
def listHasSub (needle : List Char) : List Char → Bool
  | [] => needle.isEmpty
  | h :: t => listStartsWith (h :: t) needle || listHasSub needle t

/-- Model of Python `needle in hay` on strings. -/
def strHasSub (hay needle : String) : Bool := listHasSub needle.data hay.data

/-- Does the string contain the character? Model of Python `c in s`. -/
def strHasChar (s : String) (c : Char) : Bool := s.data.contains c

/-- Value of a list of ASCII digits, most significant first. -/
def digitsVal (l : List Char) : Nat := l.foldl (fun n c => 10 * n + (c.toNat - 48)) 0

/-- Model of Python `int(tok)` on the rating tokens: optional surrounding
whitespace, an optional sign, then a nonempty run of ASCII digits; `none`
models a `ValueError`.  (Python's `int` additionally accepts underscore
digit grouping and non-ASCII decimal digits, which the AI rating tokens
never contain and which are not modelled.) -/
def pyInt (s : String) : Option Int :=
  match listTrim s.data with
  | [] => none
  | '+' :: rest =>
    if rest ≠ [] ∧ rest.all Char.isDigit then some (digitsVal rest : Int) else none
  | '-' :: rest =>
    if rest ≠ [] ∧ rest.all Char.isDigit then some (-(digitsVal rest : Int)) else none
  | l =>
    if l.all Char.isDigit then some (digitsVal l : Int) else none

/-! ## Brand-pair response parsing (AIProcessor.process_brand_batch, src/ai_processor.py lines 324-365) -/

/-- One output record of the brand identification batch: the original
search term together with the brand label. -/
structure BrandRec where
  searchTerm : String
  brand : String
deriving DecidableEq, Repr

/-- The keyword part of a `keyword:brand` pair: text before the first
colon, stripped (`pair.split(':', 1)[0].strip()`). -/
def kwPartOf (pair : String) : String := strTrim (String.mk (breakAtChar ':' pair.data).1)

/-- The brand part of a `keyword:brand` pair: text after the first colon,
stripped (`pair.split(':', 1)[1].strip()`). -/
def brandPartOf (pair : String) : String := strTrim (String.mk (breakAtChar ':' pair.data).2)

/-- First original keyword matching `kw` case-insensitively
(the `for orig_kw in keywords` search with `break`). -/
def findOrig (keywords : List String) (kw : String) : Option String :=
  keywords.find? (fun orig => strLower orig == strLower kw)

/-- Positional fallback used when keyword matching fails:
`keywords[i] if i < len(keywords) else f"unknown_{i}"`. -/
def posFallback (keywords : List String) (i : Nat) : String :=
  if h : i < keywords.length then keywords.get ⟨i, h⟩ else "unknown_" ++ toString i

/-- Record produced for the `i`-th comma-separated pair of the response
(the body of the `for i, pair in enumerate(pairs)` loop). -/
def brandPairRec (keywords : List String) (i : Nat) (pair : String) : BrandRec :=
  if strHasChar pair ':' then
    match findOrig keywords (kwPartOf pair) with
    | some orig => BrandRec.mk orig (brandPartOf pair)
    | none => BrandRec.mk (posFallback keywords i) (brandPartOf pair)
  else
    BrandRec.mk (posFallback keywords i) "ERROR_PARSING"

/-- The parsing phase of `AIProcessor.process_brand_batch`: split the raw
response on commas, strip each pair, emit one record per pair, then pad
with `ERROR_PARSING` records (`while len(results) < len(keywords)`). -/
def processBrandParse (keywords : List String) (raw : String) : List BrandRec :=
  let pairs := (strSplit raw ',').map strTrim
  let results := pairs.enum.map (fun p => brandPairRec keywords p.1 p.2)
  results ++ (keywords.drop results.length).map (fun kw => BrandRec.mk kw "ERROR_PARSING")

/-! ## Rating-tuple response parsing (AIProcessor.process_product_batch, src/ai_processor.py lines 442-507) -/

/-- One output record of the product assessment batch. -/
structure ProductRec where
  seasonal : Int
  specificity : Int
  commodity : Int
  subscribeSave : Int
  gated : Int
  electronics : Int
  insurance : Int
deriving DecidableEq, Repr

/-- The fixed default record `{Seasonal:3, Specificity:3, Commodity:3,
Subscribe&Save:2, Gated:0, Electronics_Batteries:0, Insurance_Gov:0}`. -/
def defaultProductRec : ProductRec := ⟨3, 3, 3, 2, 0, 0, 0⟩

/-- The stripped comma-separated rating tokens after the first colon of a
segment (`[r.strip() for r in ratings_part.split(',')]`). -/
def segTokens (seg : String) : List String :=
  (strSplit (String.mk (breakAtChar ':' seg.data).2) ',').map strTrim

/-- Range validation of the seven parsed ratings: first four in `[0,5]`,
last three in `[0,1]`. -/
def ratingsInRange (a b c d e f g : Int) : Prop :=
  0 ≤ a ∧ a ≤ 5 ∧ 0 ≤ b ∧ b ≤ 5 ∧ 0 ≤ c ∧ c ≤ 5 ∧ 0 ≤ d ∧ d ≤ 5 ∧
  0 ≤ e ∧ e ≤ 1 ∧ 0 ≤ f ∧ f ≤ 1 ∧ 0 ≤ g ∧ g ≤ 1

instance : ∀ a b c d e f g : Int, Decidable (ratingsInRange a b c d e f g) := by
  intro a b c d e f g
  unfold ratingsInRange
  infer_instance

/-- Build the record from the parsed tokens: exactly 7 tokens, all parsing
as ints (`len(ratings) == 7` and the `int(...)` calls), ranges validated;
every failure path yields the default record. -/
def ratingsToRec (l : List (Option Int)) : ProductRec :=
  match l with
  | [some a, some b, some c, some d, some e, some f, some g] =>
    if ratingsInRange a b c d e f g then ⟨a, b, c, d, e, f, g⟩ else defaultProductRec
  | _ => defaultProductRec

/-- Record produced for one semicolon-separated segment of the response
(the body of the `for i, assessment in enumerate(product_assessments)`
loop): a segment without a colon, with a token count other than 7, with a
non-numeric token, or with an out-of-range value yields the default. -/
def parseSegment (seg : String) : ProductRec :=
  if strHasChar seg ':' then ratingsToRec ((segTokens seg).map pyInt)
  else defaultProductRec

/-- The parsing phase of `AIProcessor.process_product_batch`: split the raw
response on semicolons, emit one record per segment, then pad with default
records (`while len(results) < len(search_terms)`). -/
def processProductParse (terms : List String) (raw : String) : List ProductRec :=
  let results := (strSplit raw ';').map parseSegment
  results ++ List.replicate (terms.length - results.length) defaultProductRec

/-! ## Error classification and processor counters (src/ai_processor.py lines 15-29, 100-119, 373-392, 515-538) -/

/-- The retryable error kinds: the exception classes `RATE_LIMIT_HIT`,
`NETWORK_ERROR` and `AUTH_ERROR`. -/
inductive ErrKind where
  | rateLimit
  | network
  | auth
deriving DecidableEq, Repr

/-- The `error_counts` dictionary of `AIProcessor.__init__`. -/
structure ErrCounts where
  rateLimit : Nat
  network : Nat
  auth : Nat
  parsing : Nat
  fileSystem : Nat
deriving DecidableEq, Repr

/-- The mutable counters of an `AIProcessor` instance that the claims are
about: `error_counts`, `rate_limit_occurrences` and `total_wait_time`. -/
structure ProcState where
  errorCounts : ErrCounts
  rateLimitOccurrences : Nat
  totalWaitTime : Rat
deriving DecidableEq, Repr

/-- An `AIProcessor` state with all counters zero. -/
def procState0 : ProcState := ⟨⟨0, 0, 0, 0, 0⟩, 0, 0⟩

/-- Increment the `parsing` error count. -/
def incParsing (st : ProcState) : ProcState :=
  { st with errorCounts := { st.errorCounts with parsing := st.errorCounts.parsing + 1 } }

/-- Increment the `file_system` error count. -/
def incFileSystem (st : ProcState) : ProcState :=
  { st with errorCounts := { st.errorCounts with fileSystem := st.errorCounts.fileSystem + 1 } }

/-- The substring classification of an endpoint failure message performed
in the `except Exception` blocks of `process_brand_batch` and
`process_product_batch`: checks are made in order, `rate limit`/`429`
first, then `authentication`/`401`, then `network`/`timeout`; `none`
models the unclassified (`parsing`) case. -/
def classifyMsg (msg : String) : Option ErrKind :=
  if strHasSub (strLower msg) "rate limit" || strHasSub msg "429" then some ErrKind.rateLimit
  else if strHasSub (strLower msg) "authentication" || strHasSub msg "401" then some ErrKind.auth
  else if strHasSub (strLower msg) "network" || strHasSub (strLower msg) "timeout" then some ErrKind.network
  else none

/-! ## Retry policy (retry_with_exponential_backoff, src/ai_processor.py lines 31-76) -/

/-- Result of one attempt of the wrapped operation: success, a failure
raised as one of the three retryable exception classes, or any other
exception (re-raised by the wrapper without retry). -/
inductive Outcome (α : Type) where
  | ok (a : α)
  | retryable (k : ErrKind)
  | fatal
deriving DecidableEq, Repr

/-- Observable result of a run under the retry wrapper: the value or the
propagated error (`some k` = a retryable error re-raised on exhaustion,
`none` = an immediately propagated unclassified error), the number of
attempts made, and the list of backoff delays slept (in seconds). -/
structure RetryResult (α : Type) where
  result : Except (Option ErrKind) α
  attempts : Nat
  delays : List Rat
deriving Repr

/-- The loop `for attempt in range(max_retries + 1)` of the decorator,
threading a caller-visible state through the attempts.  `fuel` is the
number of loop iterations left (`max_retries + 1 - attempt`); the `fuel =
0` case models the unreachable `raise last_exception` after the loop.  On
a retryable failure with `attempt < max_retries` the wrapper sleeps
`min(base_delay * 2 ** attempt, max_delay)` and retries; the sleep is
recorded in `delays` and deliberately does not touch the state (the code
never updates `total_wait_time`). -/
def retryGoSt {α σ : Type} (f : Nat → σ → Outcome α × σ) (maxR : Nat) (base maxD : Rat) :
    Nat → Nat → σ → RetryResult α × σ
  | _, 0, st => (⟨Except.error none, 0, []⟩, st)
  | attempt, fuel + 1, st =>
    match f attempt st with
    | (Outcome.ok a, st2) => (⟨Except.ok a, 1, []⟩, st2)
    | (Outcome.retryable k, st2) =>
      if attempt < maxR then
        let d := min (base * 2 ^ attempt) maxD
        let r := retryGoSt f maxR base maxD (attempt + 1) fuel st2
        (⟨r.1.result, r.1.attempts + 1, d :: r.1.delays⟩, r.2)
      else (⟨Except.error (some k), 1, []⟩, st2)
    | (Outcome.fatal, st2) => (⟨Except.error none, 1, []⟩, st2)

/-- A full run of an operation wrapped by
`retry_with_exponential_backoff(max_retries, base_delay, max_delay)`,
threading a caller-visible state. -/
def retryRunSt {α σ : Type} (f : Nat → σ → Outcome α × σ) (maxR : Nat) (base maxD : Rat)
    (st : σ) : RetryResult α × σ :=
  retryGoSt f maxR base maxD 0 (maxR + 1) st

/-- A full run of a stateless operation under the retry wrapper. -/
def retryRun {α : Type} (f : Nat → Outcome α) (maxR : Nat) (base maxD : Rat) : RetryResult α :=
  (retryRunSt (fun a (s : Unit) => (f a, s)) maxR base maxD ()).1

/-! ## The batch processor's failure containment (process_brand_batch / process_product_batch except blocks) -/

/-- The `except Exception as e` block of `process_brand_batch`: classify
the message; a classified failure increments its error count (and
`rate_limit_occurrences` for rate limits) and re-raises as the typed
exception; an unclassified failure increments `parsing` and returns a full
batch of `ERROR_API` records instead of raising. -/
def brandHandleFailure (keywords : List String) (msg : String) (st : ProcState) :
    Outcome (List BrandRec) × ProcState :=
  match classifyMsg msg with
  | some ErrKind.rateLimit =>
    (Outcome.retryable ErrKind.rateLimit,
      { st with
        errorCounts := { st.errorCounts with rateLimit := st.errorCounts.rateLimit + 1 },
        rateLimitOccurrences := st.rateLimitOccurrences + 1 })
  | some ErrKind.auth =>
    (Outcome.retryable ErrKind.auth,
      { st with errorCounts := { st.errorCounts with auth := st.errorCounts.auth + 1 } })
  | some ErrKind.network =>
    (Outcome.retryable ErrKind.network,
      { st with errorCounts := { st.errorCounts with network := st.errorCounts.network + 1 } })
  | none =>
    (Outcome.ok (keywords.map (fun kw => BrandRec.mk kw "ERROR_API")), incParsing st)

/-- The `except Exception as e` block of `process_product_batch`: same
classification; the unclassified case returns a full batch of default
records. -/
def productHandleFailure (terms : List String) (msg : String) (st : ProcState) :
    Outcome (List ProductRec) × ProcState :=
  match classifyMsg msg with
  | some ErrKind.rateLimit =>
    (Outcome.retryable ErrKind.rateLimit,
      { st with
        errorCounts := { st.errorCounts with rateLimit := st.errorCounts.rateLimit + 1 },
        rateLimitOccurrences := st.rateLimitOccurrences + 1 })
  | some ErrKind.auth =>
    (Outcome.retryable ErrKind.auth,
      { st with errorCounts := { st.errorCounts with auth := st.errorCounts.auth + 1 } })
  | some ErrKind.network =>
    (Outcome.retryable ErrKind.network,
      { st with errorCounts := { st.errorCounts with network := st.errorCounts.network + 1 } })
  | none =>
    (Outcome.ok (terms.map (fun _ => defaultProductRec)), incParsing st)

/-- One attempt of `process_brand_batch`: the endpoint either returns raw
text, which is parsed, or raises with a message, which is handled by the
`except` block above. -/
def brandAttempt (keywords : List String) (endpoint : Nat → Except String String)
    (attempt : Nat) (st : ProcState) : Outcome (List BrandRec) × ProcState :=
  match endpoint attempt with
  | Except.ok raw => (Outcome.ok (processBrandParse keywords raw), st)
  | Except.error msg => brandHandleFailure keywords msg st

/-! ## Stage drivers (brand_identifier.main batch loop, src/brand_identifier.py lines 256-295;
product_validator.main batch loop, src/product_validator.py lines 122-210) -/

/-- Durable-store write events emitted by a stage driver's batch loop.
`progSave b` = a progress record now covering batches `0..b` is written;
`partSave b` = the partial-result store now contains the results of
batches `0..b`. -/
inductive Ev where
  | progSave (batch : Nat)
  | partSave (batch : Nat)
deriving DecidableEq, Repr

/-- Outcome of one `process_batch` call seen by the brand stage driver:
either the per-item brand list, or an exception with a message. -/
inductive BatchOutcome where
  | ok (brands : List String)
  | err (msg : String)
deriving DecidableEq, Repr

/-- The batch loop of `brand_identifier.main` (lines 256-295), over the
remaining batches (each paired with its outcome).  On success the brands
are appended, progress is saved (`save_progress(i, ...)`) and then the
partial results are written.  On an exception whose message contains
`RATE_LIMIT_HIT` the function returns `False` immediately (third
component `false`); on any other exception `'error'` sentinels are
appended in memory only and the loop continues without writing anything.
Returns (final `all_brands`, write events in order, completed flag). -/
def brandLoop : List (List String × BatchOutcome) → Nat → List String →
    List String × List Ev × Bool
  | [], _, acc => (acc, [], true)
  | (_, BatchOutcome.ok brands) :: rest, idx, acc =>
    let acc2 := acc ++ brands
    let r := brandLoop rest (idx + 1) acc2
    (r.1, Ev.progSave idx :: Ev.partSave idx :: r.2.1, r.2.2)
  | (terms, BatchOutcome.err msg) :: rest, idx, acc =>
    if strHasSub msg "RATE_LIMIT_HIT" then (acc, [], false)
    else brandLoop rest (idx + 1) (acc ++ List.replicate terms.length "error")

/-- The batch loop of `product_validator.main` (lines 122-210), over the
remaining batches.  On success the assessments are zipped with the batch's
items, the partial results are appended, then progress is saved
(`save_progress(i + 1, ...)`).  On any exception a default record is
synthesized for every item of the batch, appended to the partial store,
and progress is saved; the loop always continues.  Returns (per-batch
persisted rows, write events in order). -/
def productLoop : List (List String × Except String (List ProductRec)) → Nat →
    List (List (String × ProductRec)) × List Ev
  | [], _ => ([], [])
  | (terms, Except.ok assts) :: rest, idx =>
    let recs := terms.zip assts
    let r := productLoop rest (idx + 1)
    (recs :: r.1, Ev.partSave idx :: Ev.progSave idx :: r.2)
  | (terms, Except.error _) :: rest, idx =>
    let recs := terms.map (fun t => (t, defaultProductRec))
    let r := productLoop rest (idx + 1)
    (recs :: r.1, Ev.partSave idx :: Ev.progSave idx :: r.2)

/-- A trace of store writes is crash-consistent when every progress record
covering batch `b` is preceded by the partial-result write of batch `b`. -/
def progressSafe (tr : List Ev) : Prop :=
  ∀ (i b : Nat), tr[i]? = some (Ev.progSave b) →
    ∃ j : Nat, j < i ∧ tr[j]? = some (Ev.partSave b)

/-! ## Resume model (brand_identifier.main lines 242-272) -/

/-- The brand stage's `all_brands` list after running the batch loop from
`startBatch` on, starting from the brands already accumulated:
each remaining batch's terms are labelled by `f` and appended in order.
A resumed run has `savedBrands = progress['all_brands']` and
`startBatch = progress['current_batch']` — and `save_progress(i, ...)` at
line 272 stores the index of the batch that was just completed. -/
def brandFullRun (f : String → String) (batches : List (List String)) (startBatch : Nat)
    (savedBrands : List String) : List String :=
  savedBrands ++ ((batches.drop startBatch).map (List.map f)).flatten

/-- The `all_brands` value stored in the progress record after the batches
`0..c` completed in the first (interrupted) run. -/
def brandSavedBrands (f : String → String) (batches : List (List String)) (c : Nat) :
    List String :=
  ((batches.take (c + 1)).map (List.map f)).flatten

/-- The final Brand-column assignment of `brand_identifier.main` (lines
301-302): `rows[i]['Brand'] = all_brands[i]`, i.e. each row is paired with
the brand at its position. -/
def brandFinalAssign (rows : List String) (allBrands : List String) : List (String × String) :=
  rows.zip allBrands

/-! ## Partial-result store reading (AIProcessor.read_partial_results, src/ai_processor.py lines 255-282) -/

/-- Look a field up in a stored row, defaulting to the empty string
(`row.get(field, '')`). -/
def lookupField (row : List (String × String)) (fld : String) : String :=
  ((row.find? (fun p => p.1 == fld)).map Prod.snd).getD ""

/-- Model of `AIProcessor.read_partial_results(fieldnames)`.  The file
system is made explicit: `fileExists` is the `os.path.exists` check and
`readOutcome` is the result of opening and reading the CSV (`Except.error`
models any exception raised while reading or parsing).  A missing file
yields `[]` with the state untouched; a failed read increments the
`file_system` error count and yields `[]`; a successful read rebuilds each
row restricted to `fieldnames`, defaulting missing fields to `''`. -/
def readPartResults (fieldnames : List String) (fileExists : Bool)
    (readOutcome : Except String (List (List (String × String)))) (st : ProcState) :
    List (List (String × String)) × ProcState :=
  if fileExists = false then ([], st)
  else
    match readOutcome with
    | Except.error _ => ([], incFileSystem st)
    | Except.ok rows =>
      (rows.map (fun row => fieldnames.map (fun fld => (fld, lookupField row fld))), st)

/-- An endpoint that fails every attempt with a rate-limit message. -/
def rlEndpoint : Nat → Except String String := fun _ => Except.error "Rate limit exceeded: 429"

/-! # Theorems -/

/-- If a list of parsed tokens is not of the shape `[some a, ..., some g]`
(seven successfully parsed ints), the record built from it is the default. -/
theorem ratingsToRec_no_seven (l : List (Option Int))
    (h : ∀ a b c d e f g : Int,
      l ≠ [some a, some b, some c, some d, some e, some f, some g]) :
    ratingsToRec l = defaultProductRec := by
  unfold ratingsToRec
  split
  · exact absurd rfl (h _ _ _ _ _ _ _)
  · rfl

/-- Prepending the write pair of one batch (partial first, then progress)
preserves crash consistency of a trace. -/
theorem progressSafe_cons_pair (b : Nat) (tr : List Ev) (h : progressSafe tr) :
    progressSafe (Ev.partSave b :: Ev.progSave b :: tr) := by
  intro i bb hi
  match i with
  | 0 => simp at hi
  | 1 =>
    simp at hi
    exact ⟨0, by omega, by simp [hi]⟩
  | (n + 2) =>
    simp at hi
    obtain ⟨j, hj, hjev⟩ := h n bb hi
    exact ⟨j + 2, by omega, by simpa using hjev⟩

/-- One-step unfolding of `retryGoSt` with fuel left. -/
theorem retryGoSt_step {α σ : Type} (f : Nat → σ → Outcome α × σ) (maxR : Nat)
    (base maxD : Rat) (attempt fuel : Nat) (st : σ) :
    retryGoSt f maxR base maxD attempt (fuel + 1) st
      = match f attempt st with
        | (Outcome.ok a, st2) => (⟨Except.ok a, 1, []⟩, st2)
        | (Outcome.retryable k, st2) =>
          if attempt < maxR then
            let d := min (base * 2 ^ attempt) maxD
            let r := retryGoSt f maxR base maxD (attempt + 1) fuel st2
            (⟨r.1.result, r.1.attempts + 1, d :: r.1.delays⟩, r.2)
          else (⟨Except.error (some k), 1, []⟩, st2)
        | (Outcome.fatal, st2) => (⟨Except.error none, 1, []⟩, st2) := rfl

/-- A run of the retry wrapper over an operation that fails with the same
retryable kind on every attempt, starting at `attempt` with the matching
fuel: every remaining attempt is made, each non-final one preceded by the
capped exponential delay, and the failure is re-raised. -/
theorem retryGoSt_const_fail {α σ : Type} (k : ErrKind) (b m : Rat) (maxR : Nat)
    (f : Nat → σ → Outcome α × σ)
    (hf : ∀ a st, f a st = (Outcome.retryable k, st)) :
    ∀ (n attempt : Nat) (st : σ), attempt + n = maxR →
      retryGoSt f maxR b m attempt (n + 1) st
        = (⟨Except.error (some k), n + 1,
            (List.range' attempt n).map (fun i => min (b * 2 ^ i) m)⟩, st) := by
  intro n
  induction n with
  | zero =>
    intro attempt st h
    have heq : attempt = maxR := by omega
    subst heq
    rw [retryGoSt_step, hf]
    simp
  | succ n ih =>
    intro attempt st h
    have hlt : attempt < maxR := by omega
    have ih2 := ih (attempt + 1) st (by omega)
    rw [retryGoSt_step, hf]
    simp only [hlt, if_true, ih2, List.range'_succ, List.map_cons]

/-- Claim C1, counterexample: with one input keyword and a response
containing two comma-separated pairs, `process_brand_batch`'s parser
returns two records — the output is longer than the input, so the claimed
invariant `len(result) == len(input)` fails. -/
theorem c1_counterexample :
    (processBrandParse ["a"] "a:x, b:y").length = 2
  ∧ (["a"] : List String).length = 1
  ∧ (processBrandParse ["a"] "a:x, b:y").length ≠ (["a"] : List String).length := by
  decide

/-- Claim C1 (amended): each parser mode returns a result list whose
length is the maximum of the number of comma/semicolon-separated chunks of
the response and the input length — short or malformed responses are
padded with placeholder/default records so the output is never shorter
than the input, but a response containing more pairs/segments than input
items yields one record per chunk, i.e. an output longer than the input. -/
theorem c1_output_length :
    (∀ keywords raw, (processBrandParse keywords raw).length
      = max ((strSplit raw ',').length) keywords.length)
  ∧ (∀ terms raw, (processProductParse terms raw).length
      = max ((strSplit raw ';').length) terms.length)
  ∧ (∀ keywords raw, keywords.length ≤ (processBrandParse keywords raw).length)
  ∧ (∀ terms raw, terms.length ≤ (processProductParse terms raw).length) := by
  have hb : ∀ (keywords : List String) raw, (processBrandParse keywords raw).length
      = max ((strSplit raw ',').length) keywords.length := by
    intro keywords raw
    simp [processBrandParse]
    omega
  have hp : ∀ (terms : List String) raw, (processProductParse terms raw).length
      = max ((strSplit raw ';').length) terms.length := by
    intro terms raw
    simp [processProductParse]
    omega
  refine ⟨hb, hp, ?_, ?_⟩
  · intro keywords raw
    rw [hb]
    omega
  · intro terms raw
    rw [hp]
    omega

/-- Claim C2, counterexample: in the brand-identification stage a batch
failure whose message contains `RATE_LIMIT_HIT` makes `main` return
immediately — the second batch is never processed, no sentinel records are
synthesized or persisted for the failed batch (no write events), and the
completed flag is `false`; the stage does stop because of a single batch's
retry exhaustion. -/
theorem c2_counterexample :
    brandLoop [(["a", "b"], BatchOutcome.err "Exception: RATE_LIMIT_HIT"),
               (["c"], BatchOutcome.ok ["x"])] 0 []
      = ([], [], false) := by
  decide

/-- Claim C2 (amended): only the product-validation stage driver contains
batch failures as claimed — any failed batch yields one default record per
item, persisted, with progress advanced, and the loop continues through
every batch.  The brand-identification stage driver instead returns
immediately (stage stopped, nothing persisted for the batch) when the
failure message contains `RATE_LIMIT_HIT`, and for any other failure
appends in-memory `error` sentinels and continues without persisting that
batch. -/
theorem c2_stage_failure_containment :
    (∀ terms msg rest idx,
      productLoop ((terms, Except.error msg) :: rest) idx
        = ((terms.map (fun t => (t, defaultProductRec))) :: (productLoop rest (idx + 1)).1,
           Ev.partSave idx :: Ev.progSave idx :: (productLoop rest (idx + 1)).2))
  ∧ (∀ items idx, (productLoop items idx).1.length = items.length)
  ∧ (∀ terms msg rest idx acc, strHasSub msg "RATE_LIMIT_HIT" = false →
      brandLoop ((terms, BatchOutcome.err msg) :: rest) idx acc
        = brandLoop rest (idx + 1) (acc ++ List.replicate terms.length "error"))
  ∧ (∀ terms msg rest idx acc, strHasSub msg "RATE_LIMIT_HIT" = true →
      brandLoop ((terms, BatchOutcome.err msg) :: rest) idx acc = (acc, [], false)) := by
  refine ⟨fun terms msg rest idx => rfl, ?_, ?_, ?_⟩
  · intro items
    induction items with
    | nil => intro idx; rfl
    | cons hd tl ih =>
      intro idx
      obtain ⟨terms, outc⟩ := hd
      cases outc <;> simp [productLoop, ih]
  · intro terms msg rest idx acc h
    simp [brandLoop, h]
  · intro terms msg rest idx acc h
    simp [brandLoop, h]

/-- Claim C2, witness: the rate-limit stop equation of the amended claim
at a concrete batch list. -/
theorem c2_witness :
    brandLoop [(["a"], BatchOutcome.err "RATE_LIMIT_HIT")] 0 [] = ([], [], false) :=
  c2_stage_failure_containment.2.2.2 ["a"] "RATE_LIMIT_HIT" [] 0 [] (by decide)

/-- Claim C3 (code bug): the brand-identification stage saves
`current_batch = i` after finishing batch `i` but resumes its loop at
`start_batch = current_batch`, so the saved batch is processed a second
time.  Interrupting a 10-item, 2-batch run after batch 0 was saved and
resuming yields 15 brand labels instead of 10, and the final positional
assignment gives row `i5` the label computed for `i0`. -/
theorem c3_brand_resume_duplicates :
    (brandFullRun (fun t => "B_" ++ t)
        [["i0", "i1", "i2", "i3", "i4"], ["i5", "i6", "i7", "i8", "i9"]] 0
        (brandSavedBrands (fun t => "B_" ++ t)
          [["i0", "i1", "i2", "i3", "i4"], ["i5", "i6", "i7", "i8", "i9"]] 0)).length = 15
  ∧ (brandFinalAssign ["i0", "i1", "i2", "i3", "i4", "i5", "i6", "i7", "i8", "i9"]
        (brandFullRun (fun t => "B_" ++ t)
          [["i0", "i1", "i2", "i3", "i4"], ["i5", "i6", "i7", "i8", "i9"]] 0
          (brandSavedBrands (fun t => "B_" ++ t)
            [["i0", "i1", "i2", "i3", "i4"], ["i5", "i6", "i7", "i8", "i9"]] 0)))[5]?
      = some ("i5", "B_i0") := by
  decide

/-- Claim C4, counterexample: in the brand-identification batch loop the
progress save for batch 0 is the first write event, before the partial
results of batch 0 are written — the persisted progress briefly covers a
batch whose results are not yet in the partial-result file. -/
theorem c4_counterexample :
    ¬ progressSafe (brandLoop [(["a"], BatchOutcome.ok ["nike"])] 0 []).2.1 := by
  intro h
  obtain ⟨j, hj, _⟩ := h 0 0 (by decide)
  omega

/-- Claim C4 (amended): in the product-validation stage driver every batch
loop iteration appends the batch's partial results before writing the
progress record, so the persisted progress never covers a batch whose
results are not yet in the partial-result file; in the brand-identification
stage driver the order is reversed — progress (which itself carries all
brand results) is saved before the partial-result file is written. -/
theorem c4_write_order :
    (∀ items idx, progressSafe (productLoop items idx).2)
  ∧ (∀ terms brands rest idx acc,
      (brandLoop ((terms, BatchOutcome.ok brands) :: rest) idx acc).2.1
        = Ev.progSave idx :: Ev.partSave idx
            :: (brandLoop rest (idx + 1) (acc ++ brands)).2.1) := by
  refine ⟨?_, fun terms brands rest idx acc => rfl⟩
  intro items
  induction items with
  | nil =>
    intro idx i b hi
    simp [productLoop] at hi
  | cons hd tl ih =>
    intro idx
    obtain ⟨terms, outc⟩ := hd
    cases outc with
    | ok assts => exact progressSafe_cons_pair idx _ (ih (idx + 1))
    | error msg => exact progressSafe_cons_pair idx _ (ih (idx + 1))

/-- Claim C4, witness: the product-stage ordering at a concrete one-batch
run — the progress write at trace position 1 is preceded by the partial
write at position 0. -/
theorem c4_witness :
    ∃ j : Nat, j < 1
      ∧ ((productLoop [(["a"], Except.ok [defaultProductRec])] 0).2)[j]?
          = some (Ev.partSave 0) :=
  c4_write_order.1 [(["a"], Except.ok [defaultProductRec])] 0 1 0 (by decide)

/-- A run under the retry wrapper whose first attempt fails retryably and
whose second attempt succeeds: one capped delay, then the value. -/
theorem retryGoSt_fail_then_ok {α : Type} (v : α) (k : ErrKind) (b m : Rat)
    (maxR fuel : Nat) (f : Nat → Unit → Outcome α × Unit)
    (hf0 : f 0 () = (Outcome.retryable k, ()))
    (hf1 : f 1 () = (Outcome.ok v, ()))
    (h0 : 0 < maxR) :
    retryGoSt f maxR b m 0 (fuel + 2) () = (⟨Except.ok v, 2, [min (b * 2 ^ 0) m]⟩, ()) := by
  rw [retryGoSt_step, hf0]
  simp only [h0, if_true]
  rw [retryGoSt_step, hf1]

/-- Claim C5: under `retry_with_exponential_backoff(max_retries, base_delay,
max_delay)`, a retryable failure at attempt `i` waits
`min(base_delay * 2 ** i, max_delay)` and retries, up to `max_retries`
additional attempts, after which the last failure is re-raised;
`max_retries = 0` performs exactly one attempt; a rate-limited failure on
every attempt with `max_retries = 2` gives exactly 3 attempts and
cumulative delay `min(base, max) + min(2 * base, max)` before the error
propagates; a first-attempt failure followed by success retries once after
one capped delay. -/
theorem c5_retry_policy :
    (∀ (k : ErrKind) (b m : Rat) (maxR : Nat),
      retryRun (fun _ => (Outcome.retryable k : Outcome (List BrandRec))) maxR b m
        = ⟨Except.error (some k), maxR + 1,
           (List.range maxR).map (fun i => min (b * 2 ^ i) m)⟩)
  ∧ (∀ (f : Nat → Outcome (List BrandRec)) (b m : Rat), (retryRun f 0 b m).attempts = 1)
  ∧ (∀ (k : ErrKind) (b m : Rat),
      (retryRun (fun _ => (Outcome.retryable k : Outcome (List BrandRec))) 2 b m).attempts = 3)
  ∧ (∀ (k : ErrKind) (b m : Rat),
      (retryRun (fun _ => (Outcome.retryable k : Outcome (List BrandRec))) 2 b m).result
        = Except.error (some k))
  ∧ (∀ (k : ErrKind) (b m : Rat),
      (retryRun (fun _ => (Outcome.retryable k : Outcome (List BrandRec))) 2 b m).delays.sum
        = min b m + min (b * 2) m)
  ∧ (∀ (v : List BrandRec) (k : ErrKind) (b m : Rat),
      retryRun (fun n => if n = 0 then Outcome.retryable k else Outcome.ok v) 5 b m
        = ⟨Except.ok v, 2, [min b m]⟩) := by
  have hconst : ∀ (k : ErrKind) (b m : Rat) (maxR : Nat),
      retryRun (fun _ => (Outcome.retryable k : Outcome (List BrandRec))) maxR b m
        = ⟨Except.error (some k), maxR + 1,
           (List.range maxR).map (fun i => min (b * 2 ^ i) m)⟩ := by
    intro k b m maxR
    unfold retryRun retryRunSt
    rw [retryGoSt_const_fail k b m maxR _ (fun a st => rfl) maxR 0 () (by omega)]
    simp [List.range_eq_range']
  refine ⟨hconst, ?_, ?_, ?_, ?_, ?_⟩
  · intro f b m
    unfold retryRun retryRunSt
    rw [retryGoSt_step]
    cases h : f 0 <;> simp [h]
  · intro k b m
    rw [hconst]
  · intro k b m
    rw [hconst]
  · intro k b m
    rw [hconst]
    simp [List.range_succ]
  · intro v k b m
    unfold retryRun retryRunSt
    rw [show (5 : Nat) + 1 = 4 + 2 from rfl]
    rw [retryGoSt_fail_then_ok v k b m 5 4 _ rfl rfl (by norm_num)]
    norm_num

/-- Claim C6, counterexample: classification checks the indicative
substrings in a fixed order, so a failure message containing both an
authentication indication and a rate-limit indication is classified
RateLimited, not Auth as the claim's unconditional rule requires. -/
theorem c6_counterexample :
    classifyMsg "authentication failed: rate limit exceeded" = some ErrKind.rateLimit
  ∧ strHasSub (strLower "authentication failed: rate limit exceeded") "authentication" = true
  ∧ some ErrKind.rateLimit ≠ some ErrKind.auth := by
  decide

/-- Claim C6 (amended): endpoint failures are classified by substring
inspection in priority order — a message with a `rate limit`/`429`
indication raises RateLimited; one with an `authentication`/`401`
indication but no rate-limit indication raises Auth; one with a
`network`/`timeout` indication but no higher-priority indication raises
Network; an unclassified failure is never retried — the batch processor
catches it and returns a full batch of sentinel/default records (one per
input item), and a failure that does reach the retry wrapper unclassified
propagates after exactly one attempt with no delay. -/
theorem c6_error_classification :
    (∀ msg, (strHasSub (strLower msg) "rate limit" || strHasSub msg "429") = true →
      classifyMsg msg = some ErrKind.rateLimit)
  ∧ (∀ msg, (strHasSub (strLower msg) "rate limit" || strHasSub msg "429") = false →
      (strHasSub (strLower msg) "authentication" || strHasSub msg "401") = true →
      classifyMsg msg = some ErrKind.auth)
  ∧ (∀ msg, (strHasSub (strLower msg) "rate limit" || strHasSub msg "429") = false →
      (strHasSub (strLower msg) "authentication" || strHasSub msg "401") = false →
      (strHasSub (strLower msg) "network" || strHasSub (strLower msg) "timeout") = true →
      classifyMsg msg = some ErrKind.network)
  ∧ (∀ msg keywords st, classifyMsg msg = none →
      brandHandleFailure keywords msg st
        = (Outcome.ok (keywords.map (fun kw => BrandRec.mk kw "ERROR_API")), incParsing st))
  ∧ (∀ msg terms st, classifyMsg msg = none →
      productHandleFailure terms msg st
        = (Outcome.ok (terms.map (fun _ => defaultProductRec)), incParsing st))
  ∧ (∀ (f : Nat → Outcome (List BrandRec)) (maxR : Nat) (b m : Rat),
      f 0 = Outcome.fatal → retryRun f maxR b m = ⟨Except.error none, 1, []⟩) := by
  refine ⟨?_, ?_, ?_, ?_, ?_, ?_⟩
  · intro msg h
    simp [classifyMsg, h]
  · intro msg h1 h2
    simp [classifyMsg, h1, h2]
  · intro msg h1 h2 h3
    simp [classifyMsg, h1, h2, h3]
  · intro msg keywords st h
    simp [brandHandleFailure, h]
  · intro msg terms st h
    simp [productHandleFailure, h]
  · intro f maxR b m h
    unfold retryRun retryRunSt
    rw [retryGoSt_step]
    simp [h]

/-- Claim C6, witness: an authentication indication with no rate-limit
indication classifies as Auth. -/
theorem c6_witness : classifyMsg "HTTP 401 unauthorized" = some ErrKind.auth :=
  c6_error_classification.2.1 "HTTP 401 unauthorized" (by decide) (by decide)

/-- A run of the retry wrapper over an operation that fails with the same
retryable kind on every attempt while applying the same state update `u`
at each attempt (the per-attempt error-count increments of the `except`
blocks): every remaining attempt is made with its capped delay, the
failure is re-raised, and the final state is `u` iterated once per
attempt. -/
theorem retryGoSt_const_fail_upd {α σ : Type} (k : ErrKind) (b m : Rat) (maxR : Nat)
    (f : Nat → σ → Outcome α × σ) (u : σ → σ)
    (hf : ∀ a st, f a st = (Outcome.retryable k, u st)) :
    ∀ (n attempt : Nat) (st : σ), attempt + n = maxR →
      retryGoSt f maxR b m attempt (n + 1) st
        = (⟨Except.error (some k), n + 1,
            (List.range' attempt n).map (fun i => min (b * 2 ^ i) m)⟩, u^[n + 1] st) := by
  intro n
  induction n with
  | zero =>
    intro attempt st h
    have heq : attempt = maxR := by omega
    subst heq
    rw [retryGoSt_step, hf]
    simp
  | succ n ih =>
    intro attempt st h
    have hlt : attempt < maxR := by omega
    have ih2 := ih (attempt + 1) (u st) (by omega)
    rw [retryGoSt_step, hf]
    simp only [hlt, if_true, ih2, List.range'_succ, List.map_cons]
    rw [Function.iterate_succ_apply u (n + 1) st]

/-- Claim C7 (code bug): running `process_brand_batch` against an endpoint
that fails with a rate-limit message on every attempt, under the wrapper's
parameters `max_retries = 5, base_delay = 1, max_delay = 30`, records every
failed attempt in the error-count map (6 attempts, `rate_limit` count 6)
and sleeps 5 backoff delays totalling 31 seconds — but the
`total_wait_time` counter is never incremented anywhere in the code, so it
still equals its initial value instead of having increased by the sum of
the delays. -/
theorem c7_wait_time_never_accumulated :
    ((retryRunSt (brandAttempt ["kw"] rlEndpoint) 5 1 30 procState0).2.errorCounts.rateLimit = 6)
  ∧ ((retryRunSt (brandAttempt ["kw"] rlEndpoint) 5 1 30 procState0).2.rateLimitOccurrences = 6)
  ∧ ((retryRunSt (brandAttempt ["kw"] rlEndpoint) 5 1 30 procState0).1.attempts = 6)
  ∧ ((retryRunSt (brandAttempt ["kw"] rlEndpoint) 5 1 30 procState0).1.delays
      = [1, 2, 4, 8, 16])
  ∧ ((retryRunSt (brandAttempt ["kw"] rlEndpoint) 5 1 30 procState0).1.delays.sum = 31)
  ∧ ((retryRunSt (brandAttempt ["kw"] rlEndpoint) 5 1 30 procState0).2.totalWaitTime
      = procState0.totalWaitTime)
  ∧ procState0.totalWaitTime = 0 := by
  have hcls : classifyMsg "Rate limit exceeded: 429" = some ErrKind.rateLimit := by decide
  have hf : ∀ (a : Nat) (st : ProcState), brandAttempt ["kw"] rlEndpoint a st
      = (Outcome.retryable ErrKind.rateLimit,
         (fun st2 : ProcState =>
            { st2 with
              errorCounts :=
                { st2.errorCounts with rateLimit := st2.errorCounts.rateLimit + 1 },
              rateLimitOccurrences := st2.rateLimitOccurrences + 1 }) st) := by
    intro a st
    simp [brandAttempt, rlEndpoint, brandHandleFailure, hcls]
  have hrun := retryGoSt_const_fail_upd ErrKind.rateLimit 1 30 5
      (brandAttempt ["kw"] rlEndpoint)
      (fun st2 : ProcState =>
        { st2 with
          errorCounts := { st2.errorCounts with rateLimit := st2.errorCounts.rateLimit + 1 },
          rateLimitOccurrences := st2.rateLimitOccurrences + 1 })
      hf 5 0 procState0 (by omega)
  unfold retryRunSt
  rw [hrun]
  refine ⟨by decide, by decide, by decide, ?_, ?_, by decide, rfl⟩
  · norm_num [List.range', min_def]
  · norm_num [List.range', min_def]

/-- Claim C8: a rating-tuple segment is accepted only when it has a colon
and exactly 7 integer tokens with the first four in `[0,5]` and the last
three in `[0,1]`; on any validation failure — missing colon, wrong token
count, non-numeric token, or out-of-range value — the fixed default record
`{3,3,3,2,0,0,0}` is substituted; in particular
`"shampoo:1,2,3,4,0,0,0"` parses to `(1,2,3,4,0,0,0)` while
`"shampoo:9,2,3,4,0,0,0"` yields the default. -/
theorem c8_segment_validation :
    (∀ seg, strHasChar seg ':' = false → parseSegment seg = defaultProductRec)
  ∧ (∀ seg, (segTokens seg).length ≠ 7 → parseSegment seg = defaultProductRec)
  ∧ (∀ seg, none ∈ (segTokens seg).map pyInt → parseSegment seg = defaultProductRec)
  ∧ (∀ seg (a b c d e f g : Int),
      strHasChar seg ':' = true →
      (segTokens seg).map pyInt = [some a, some b, some c, some d, some e, some f, some g] →
      (ratingsInRange a b c d e f g → parseSegment seg = ⟨a, b, c, d, e, f, g⟩)
      ∧ (¬ ratingsInRange a b c d e f g → parseSegment seg = defaultProductRec))
  ∧ parseSegment "shampoo:1,2,3,4,0,0,0" = ⟨1, 2, 3, 4, 0, 0, 0⟩
  ∧ parseSegment "shampoo:9,2,3,4,0,0,0" = defaultProductRec := by
  refine ⟨?_, ?_, ?_, ?_, by decide, by decide⟩
  · intro seg h
    simp [parseSegment, h]
  · intro seg h
    unfold parseSegment
    split
    · refine ratingsToRec_no_seven _ (fun a b c d e f g heq => ?_)
      apply h
      have : ((segTokens seg).map pyInt).length = 7 := by rw [heq]; rfl
      simpa using this
    · rfl
  · intro seg h
    unfold parseSegment
    split
    · refine ratingsToRec_no_seven _ (fun a b c d e f g heq => ?_)
      rw [heq] at h
      simp at h
    · rfl
  · intro seg a b c d e f g hc hmap
    constructor
    · intro hr
      simp [parseSegment, hc, hmap, ratingsToRec, hr]
    · intro hr
      simp [parseSegment, hc, hmap, ratingsToRec, hr]

/-- Claim C8, witness: the wrong-token-count rule at a concrete segment
with only two tokens. -/
theorem c8_witness : parseSegment "x:1,2" = defaultProductRec :=
  c8_segment_validation.2.1 "x:1,2" (by decide)

/-- Claim C9: when a parsed brand pair at position `i` matches no input
keyword case-insensitively, the record's search term is `keywords[i]` when
`i < len(keywords)` but the synthetic `"unknown_i"` when `i` is past the
end — so a response with more pairs than keywords produces search-term
values that appear in no input item, as in the concrete run below. -/
theorem c9_positional_fallback :
    (∀ (keywords : List String) (i : Nat) (pair : String) (h : i < keywords.length),
      strHasChar pair ':' = true →
      findOrig keywords (kwPartOf pair) = none →
      (brandPairRec keywords i pair).searchTerm = keywords.get ⟨i, h⟩)
  ∧ (∀ (keywords : List String) (i : Nat) (pair : String), keywords.length ≤ i →
      strHasChar pair ':' = true →
      findOrig keywords (kwPartOf pair) = none →
      (brandPairRec keywords i pair).searchTerm = "unknown_" ++ toString i)
  ∧ (processBrandParse ["apple"] "apple:x, weird:y").map BrandRec.searchTerm
      = ["apple", "unknown_1"]
  ∧ "unknown_1" ∉ (["apple"] : List String) := by
  refine ⟨?_, ?_, by decide, by decide⟩
  · intro keywords i pair h hc hf
    simp [brandPairRec, hc, hf, posFallback, h]
  · intro keywords i pair h hc hf
    have h2 : ¬ i < keywords.length := by omega
    simp [brandPairRec, hc, hf, posFallback, h2]

/-- Claim C9, witness: the in-range positional fallback at a concrete
non-matching pair. -/
theorem c9_witness : (brandPairRec ["zed"] 0 "q:x").searchTerm = "zed" :=
  c9_positional_fallback.1 ["zed"] 0 "q:x" (by decide) (by decide) (by decide)

/-- Claim C10: `read_partial_results` returns the empty list with the
state untouched when the partial-result file does not exist, and on any
exception while reading it increments the `file_system` error count and
returns the empty list rather than raising — a corrupted partial-result
file silently yields zero reconstructed records. -/
theorem c10_read_part_results :
    (∀ fieldnames outcome st, readPartResults fieldnames false outcome st = ([], st))
  ∧ (∀ fieldnames msg st,
      readPartResults fieldnames true (Except.error msg) st = ([], incFileSystem st))
  ∧ (∀ fieldnames msg st,
      (readPartResults fieldnames true (Except.error msg) st).2.errorCounts.fileSystem
        = st.errorCounts.fileSystem + 1) := by
  exact ⟨fun _ _ _ => rfl, fun _ _ _ => rfl, fun _ _ _ => rfl⟩
